import Mathlib

/-
Verification of the environment lifecycle and state subsystem of the
supabase-cli repository (packages internal/start, internal/stop,
internal/db/commit and the utils helpers).  Go functions are embedded as
pure Lean functions; external effects (docker exec results, file system
contents, psql outcomes) are passed in explicitly as oracle values, and
stateful phases are modelled as explicit state transformers.
-/

namespace SupabaseCli

/-! ## Legacy migration skip rule

start.go lines 460-473 and commit.go lines 142-154 contain the identical
backward-compatibility check: for the migration file at index 0 of the
directory listing, the Go regular expression `([0-9]{14})_init\.sql` is run
with FindStringSubmatch; when it matches and the captured 14-digit group
parses below 20211209000000, the file is skipped (`continue`). -/

/-- Character class of the regular expression fragment [0-9]. -/
def isDig (c : Char) : Bool := decide ('0' ≤ c) && decide (c ≤ '9')

/-- Value computed by strconv.ParseUint base 10 on an all-digit string.
Fourteen decimal digits always fit in uint64 (at most 10 ^ 14 - 1 < 2 ^ 64),
so the overflow and error paths of ParseUint are unreachable at the call
sites and the result is the plain numeric value. -/
def parseDigits (cs : List Char) : Nat :=
  cs.foldl (fun a c => a * 10 + (c.toNat - 48)) 0

/-- Match of the regular expression `([0-9]{14})_init\.sql` anchored at the
beginning of the character list: fourteen digits followed by the literal
characters _init.sql, with arbitrary remainder.  Returns capture group 1
(the digit block) on success. -/
def matchInitHere (s : List Char) : Option (List Char) :=
  let ds := s.take 14
  if ds.length == 14 && ds.all isDig && ((s.drop 14).take 9 == "_init.sql".data) then
    some ds
  else
    none

/-- regexp.FindStringSubmatch semantics for `([0-9]{14})_init\.sql`
(start.go line 465, commit.go line 146): the pattern is unanchored, so the
scan returns the capture group of the leftmost position at which the
pattern matches, and none when no position matches. -/
def findInitMatch : List Char → Option (List Char)
  | [] => none
  | c :: cs =>
    match matchInitHere (c :: cs) with
    | some ds => some ds
    | none => findInitMatch cs

/-- The backward-compatibility test applied to the migration file at
index 0 (start.go lines 464-473, commit.go lines 145-154): true exactly
when the loop executes `continue` for that file. -/
def isLegacyInit (name : String) : Bool :=
  match findInitMatch name.data with
  | some ds => decide (parseDigits ds < 20211209000000)
  | none => false

/-- The sequence of migration files the replay loops actually process, in
order: the file at index 0 is dropped when isLegacyInit holds for it, and
every other file of the listing is processed in listing order. -/
def replayedMigrations : List String → List String
  | [] => []
  | f :: fs => if isLegacyInit f then fs else f :: fs

/-- Strict lexicographic order on character data, the order in which
os.ReadDir returns directory entries (sorted by filename). -/
def lexLt : List Char → List Char → Bool
  | [], [] => false
  | [], _ :: _ => true
  | _ :: _, [] => false
  | a :: as, b :: bs => if a = b then lexLt as bs else decide (a < b)

/-! ## Branch restore (start.go lines 331-379)

The restore phase of run() reads the branch directory listing once, then
for every directory except the pointer file reads its dump.sql and replays
it into a freshly created same-named database.  Failures are handled per
branch: the directory is removed, the pointer file is rewritten to main,
the error is printed to stderr, and the loop continues. -/

/-- External outcomes the restore loop depends on: file system contents and
docker exec results, per branch name. -/
structure RestoreEnv where
  /-- content of .supabase/branches/NAME/dump.sql; none models os.ErrNotExist -/
  dump : String → Option String
  /-- whether the docker exec replaying the dump (CREATE DATABASE plus the
  dump content in one transaction, checked through ProcessPsqlOutput)
  succeeds for the branch -/
  execOk : String → Bool

/-- On-disk and in-container state touched by the restore loop. -/
structure BranchesState where
  /-- directory entries under .supabase/branches in ReadDir order; may
  include the pointer file entry _current_branch, which the loop skips -/
  dirs : List String
  /-- content of .supabase/branches/_current_branch -/
  pointer : String
  /-- databases created in the postgres container -/
  databases : List String
  /-- lines printed to stderr, as pairs of branch name and error text;
  the Aqua coloring and fmt formatting are abstracted away -/
  errLog : List (String × String)

/-- Body of the per-branch closure (start.go lines 341-367): a missing dump
file yields the distinct error text; other read failures and non-empty psql
error streams collapse into the exec oracle because every error path is
handled identically by the caller. -/
def restoreBranch (env : RestoreEnv) (b : String) : Except String Unit :=
  match env.dump b with
  | none => Except.error "Branch was not dumped."
  | some _ =>
    if env.execOk b then Except.ok ()
    else Except.error "Error starting database: psql failure"

/-- One iteration of the restore loop (start.go lines 336-372): skip the
pointer file entry; on success the branch database exists; on failure
remove the branch directory, rewrite the pointer file to main, log the
error, and continue. -/
def restoreStep (env : RestoreEnv) (s : BranchesState) (b : String) : BranchesState :=
  if b == "_current_branch" then s
  else
    match restoreBranch env b with
    | Except.ok _ => { s with databases := s.databases ++ [b] }
    | Except.error e =>
      { s with dirs := s.dirs.filter (fun d => d != b),
               pointer := "main",
               errLog := s.errLog ++ [(b, e)] }

/-- The loop ranges over the listing obtained before the loop starts, so
directory removals during the loop do not affect the iteration. -/
def restoreList (env : RestoreEnv) : List String → BranchesState → BranchesState
  | [], s => s
  | b :: bs, s => restoreList env bs (restoreStep env s b)

/-- RestoreAll: run the loop over the branch directories present when it
begins. -/
def restoreAll (env : RestoreEnv) (s : BranchesState) : BranchesState :=
  restoreList env s.dirs s

/-- Enclosing control flow (start.go lines 335-379) when the branches
directory exists: errors of individual branches are consumed inside the
loop and never escape it, so the restore phase always reports success to
run(). -/
def restorePhase (env : RestoreEnv) (s : BranchesState) : Except String BranchesState :=
  Except.ok (restoreAll env s)

def c1Env : RestoreEnv :=
  { dump := fun n => if n == "B" then none else some "CREATE TABLE t (c int);",
    execOk := fun _ => true }

def c1State : BranchesState :=
  { dirs := ["A", "B", "C"], pointer := "B", databases := [], errLog := [] }

/-! ## Main branch creation (start.go lines 381-533)

When no .supabase/branches/main directory exists, run() creates it, then a
closure creates database main, applies the baseline schema, applies the
optional extensions file, replays the non-legacy migrations in listing
order, and applies the optional seed file.  Any closure error removes the
main directory and is returned from run(), failing Start. -/

/-- External outcomes of the main-branch creation steps: docker exec
results and optional file contents. -/
structure MainEnv where
  /-- createdb main succeeds with an empty error stream -/
  createdbOk : Bool
  /-- the baseline InitialSchemaSql transaction succeeds -/
  schemaOk : Bool
  /-- content of .supabase/extensions.sql; none models os.ErrNotExist -/
  extensionsSql : Option String
  /-- the psql run of the extensions file succeeds -/
  extensionsOk : Bool
  /-- ReadDir listing of .supabase/migrations -/
  migrations : List String
  /-- per-file success of the migration transaction (ReadFile failures
  collapse into the same oracle, every error path aborts identically) -/
  migrationOk : String → Bool
  /-- content of .supabase/seed.sql; none models os.ErrNotExist -/
  seedSql : Option String
  /-- the psql run of the seed file succeeds -/
  seedOk : Bool

/-- Stage tags of the closure error, mirroring the stage at which the
closure returns early. -/
inductive MainErr
  | createDb
  | schema
  | extensions
  | migration (name : String)
  | seed
  deriving DecidableEq

/-- Replay loop over the already-filtered migration sequence: the first
failing file aborts, returning its name. -/
def replayFiles (ok : String → Bool) : List String → Except String Unit
  | [] => Except.ok ()
  | f :: fs => if ok f then replayFiles ok fs else Except.error f

/-- The closure of start.go lines 389-526: each stage runs only when every
earlier stage succeeded; a missing extensions or seed file is skipped, and
the migration loop runs over the legacy-filtered listing. -/
def ensureMainBody (env : MainEnv) : Except MainErr Unit :=
  if !env.createdbOk then Except.error MainErr.createDb
  else if !env.schemaOk then Except.error MainErr.schema
  else if (match env.extensionsSql with
           | none => false
           | some _ => !env.extensionsOk) then Except.error MainErr.extensions
  else
    match replayFiles env.migrationOk (replayedMigrations env.migrations) with
    | Except.error f => Except.error (MainErr.migration f)
    | Except.ok _ =>
      if (match env.seedSql with
          | none => false
          | some _ => !env.seedOk) then Except.error MainErr.seed
      else Except.ok ()

/-- start.go lines 382-533: on closure error os.RemoveAll deletes the main
branch directory and run() returns the error, failing Start.  The result is
the run outcome of this phase together with whether the directory
.supabase/branches/main still exists afterwards. -/
def ensureMain (env : MainEnv) : Except MainErr Unit × Bool :=
  match ensureMainBody env with
  | Except.ok _ => (Except.ok (), true)
  | Except.error e => (Except.error e, false)

/-! ## Image ensure (start.go lines 120-277)

For each required image run() inspects the local image and only on inspect
failure issues a remote pull. -/

/-- Local docker image state for one reference. -/
structure ImageState where
  /-- ImageInspectWithRaw succeeds locally -/
  present : Bool

/-- One image-ensure block (for example start.go lines 124-136): inspect
first; pull only when the inspect fails; a successful pull makes the image
present; a failed pull aborts run().  Returns the run result together with
the number of remote pulls issued. -/
def ensureImage (pullOk : Bool) (s : ImageState) : Except String ImageState × Nat :=
  if s.present then (Except.ok s, 0)
  else if pullOk then (Except.ok { present := true }, 1)
  else (Except.error "pull failure", 1)

/-- Two invocations of the ensure block for the same reference, the second
running on the local state left by the first; a failed first invocation
aborts before the second. -/
def ensureImageTwice (pull1 pull2 : Bool) (s : ImageState) :
    Except String ImageState × Nat :=
  match ensureImage pull1 s with
  | (Except.ok s1, n1) =>
    match ensureImage pull2 s1 with
    | (r, n2) => (r, n1 + n2)
  | (Except.error e, n1) => (Except.error e, n1)

/-! ## Commit pipeline (commit.go lines 67-216)

run() registers `defer cleanup()` first, creates the shadow database,
bootstraps it, replays the non-legacy migrations, requests the diff and
writes the new migration file.  cleanup() drops the shadow database with a
background context and discards the exec result. -/

/-- External commands the pipeline issues, in order. -/
inductive CommitEffect
  | execCreateShadow
  | execShadowSchema
  | execExtensions
  | execMigration (name : String)
  | execDiff
  | writeMigrationFile
  | dropShadowDb
  deriving DecidableEq

/-- Stage tags of pipeline failure. -/
inductive CommitErr
  | createShadow
  | shadowSchema
  | extensions
  | migration (name : String)
  | diff
  | write
  deriving DecidableEq

/-- External outcomes of the pipeline steps.  A context cancelled by the
Ctrl-C handler makes the docker exec of the step in flight fail, so
cancellation surfaces as a false oracle for that step. -/
structure CommitEnv where
  /-- createdb supabase_shadow succeeds with an empty error stream -/
  createShadowOk : Bool
  /-- the baseline InitialSchemaSql transaction succeeds -/
  shadowSchemaOk : Bool
  /-- content of .supabase/extensions.sql; none models os.ErrNotExist -/
  extensionsSql : Option String
  /-- the psql run of the extensions file succeeds -/
  extensionsOk : Bool
  /-- ReadDir listing of .supabase/migrations -/
  migrations : List String
  /-- per-file success of the migration transaction -/
  migrationOk : String → Bool
  /-- the differ exec plus ProcessDiffOutput succeed -/
  diffOk : Bool
  /-- os.WriteFile of the new migration succeeds -/
  writeOk : Bool

/-- Issue one effect; on failure stop with the stage error, otherwise
prepend the effect to the continuation. -/
def seqEffect (eff : CommitEffect) (ok : Bool) (e : CommitErr)
    (rest : List CommitEffect × Except CommitErr Unit) :
    List CommitEffect × Except CommitErr Unit :=
  if ok then (eff :: rest.1, rest.2) else ([eff], Except.error e)

/-- The migration replay loop of commit.go lines 142-181 over the
legacy-filtered listing: each file issues one exec, the first failure
aborts. -/
def commitMigrationSteps (ok : String → Bool) :
    List String → List CommitEffect × Except CommitErr Unit
  | [] => ([], Except.ok ())
  | f :: fs =>
    if ok f then
      let r := commitMigrationSteps ok fs
      (CommitEffect.execMigration f :: r.1, r.2)
    else ([CommitEffect.execMigration f], Except.error (CommitErr.migration f))

/-- Diff request and migration file write (commit.go lines 186-205). -/
def commitDiffWrite (env : CommitEnv) : List CommitEffect × Except CommitErr Unit :=
  seqEffect CommitEffect.execDiff env.diffOk CommitErr.diff
    (seqEffect CommitEffect.writeMigrationFile env.writeOk CommitErr.write
      ([], Except.ok ()))

/-- Migration replay followed by the diff stage. -/
def commitAfterExtensions (env : CommitEnv) : List CommitEffect × Except CommitErr Unit :=
  match commitMigrationSteps env.migrationOk (replayedMigrations env.migrations) with
  | (tr, Except.error e) => (tr, Except.error e)
  | (tr, Except.ok _) => (tr ++ (commitDiffWrite env).1, (commitDiffWrite env).2)

/-- The body of commit.go run() between the defer registration and the
return: shadow creation, bootstrap, optional extensions, migrations, diff,
write. -/
def commitBody (env : CommitEnv) : List CommitEffect × Except CommitErr Unit :=
  seqEffect CommitEffect.execCreateShadow env.createShadowOk CommitErr.createShadow
    (seqEffect CommitEffect.execShadowSchema env.shadowSchemaOk CommitErr.shadowSchema
      (match env.extensionsSql with
       | none => commitAfterExtensions env
       | some _ =>
         seqEffect CommitEffect.execExtensions env.extensionsOk CommitErr.extensions
           (commitAfterExtensions env)))

/-- run() with its deferred cleanup (commit.go lines 68 and 210-216): the
drop of the shadow database runs after the body on every return path, uses
a background context so a cancelled run context does not affect it, and its
exec result (the dropOk argument) is discarded, leaving the body result
unchanged. -/
def commitRun (env : CommitEnv) (dropOk : Bool) :
    List CommitEffect × Except CommitErr Unit :=
  ((commitBody env).1 ++ [CommitEffect.dropShadowDb], (commitBody env).2)

/-! ## Docker resources, cancellation cleanup and Stop

Resources are addressed through the com.supabase.cli.project label; the
teardown paths operate on the resources carrying that label. -/

/-- A container or network, with whether it carries the project-id label. -/
structure LabeledRes where
  id : String
  labeled : Bool
  deriving DecidableEq

/-- Containers and networks visible to the docker daemon. -/
structure DockerWorld where
  containers : List LabeledRes
  networks : List LabeledRes
  deriving DecidableEq

/-- Modelled from the spec: the body of utils.DockerRemoveAll is not under
src (only its call sites in start.go lines 67 and 877 are).  Per the spec,
sections 4.1 and 4.4, the cancellation cleanup runs the same resource
removal as Stop: it removes every container and network tagged with the
project-id label, concurrently and best-effort with errors swallowed, so
unlabeled resources survive and labeled ones are gone. -/
def dockerRemoveAllSpec (w : DockerWorld) : DockerWorld :=
  { containers := w.containers.filter (fun c => !c.labeled),
    networks := w.networks.filter (fun n => !n.labeled) }

/-- Outcome of start.Run. -/
inductive StartOutcome
  | started
  | failed (e : String)
  | aborted
  deriving DecidableEq

/-- start.Run control flow after the UI loop exits (start.go lines 60-75).
On Ctrl-C the Update handler (start.go lines 871-878) cancels the context
and runs the cleanup before quitting the loop; Run then observes the
cancelled context first and returns the distinguished Aborted outcome
without consulting the worker error.  Without cancellation, a worker error
triggers the cleanup plus the labeled project network removal and the
error is returned; otherwise Run reports success. -/
def startRunExit (canceled : Bool) (workerErr : Option String) (w : DockerWorld) :
    StartOutcome × DockerWorld :=
  if canceled then (StartOutcome.aborted, dockerRemoveAllSpec w)
  else
    match workerErr with
    | some e => (StartOutcome.failed e, dockerRemoveAllSpec w)
    | none => (StartOutcome.started, w)

/-- External outcomes of the Stop steps. -/
structure StopEnv where
  /-- per-container ContainerRemove success; a failure is swallowed and
  leaves the container behind (stop.go lines 45-52) -/
  removeOk : String → Bool
  /-- NetworksPrune succeeds (stop.go lines 59-64) -/
  pruneOk : Bool
  /-- os.RemoveAll of .supabase/branches succeeds (stop.go lines 67-69) -/
  rmBranchesOk : Bool

/-- File system state the Stop command touches. -/
structure StopWorld where
  containers : List LabeledRes
  networks : List LabeledRes
  /-- whether the .supabase/branches directory tree exists -/
  branchesDir : Bool

/-- Outcome of stop.Run: the already-stopped no-op message, full success,
or an error return from the prune or directory removal step. -/
inductive StopOutcome
  | alreadyStopped
  | stopped
  | failed
  deriving DecidableEq

/-- stop.Run (stop.go lines 16-74): when AssertSupabaseStartIsRunning
fails (the database container is absent) the command prints the
already-stopped message and returns nil without touching any resource.
Otherwise it lists the project-labeled containers, removes them
concurrently waiting on the WaitGroup (failures swallowed), prunes
project-labeled networks, removes the branches directory, and reports
success. -/
def stopRun (env : StopEnv) (running : Bool) (w : StopWorld) : StopOutcome × StopWorld :=
  if !running then (StopOutcome.alreadyStopped, w)
  else
    let w1 : StopWorld :=
      { w with containers := w.containers.filter fun c => !c.labeled || !env.removeOk c.id }
    if !env.pruneOk then (StopOutcome.failed, w1)
    else
      let w2 : StopWorld := { w1 with networks := w1.networks.filter fun n => !n.labeled }
      if !env.rmBranchesOk then (StopOutcome.failed, w2)
      else (StopOutcome.stopped, { w2 with branchesDir := false })

/-! ## Progress UI state machine (start.go lines 856-927, commit.go lines 218-289)

Both commands carry an identical bubbletea model and Update function. -/

/-- Message union delivered to Update; otherMsg covers the default branch
taken for any message type not switched on. -/
inductive TeaMsg
  | keyMsg (isCtrlC : Bool)
  | windowSize (width : Nat)
  | spinnerTick
  | progressFrame
  | statusMsg (s : String)
  | progressMsg (percent : Option Unit)
  | psqlMsg (line : Option String)
  | otherMsg

/-- Model state.  The spinner and progress-bar internals live in external
bubbles components; only the presence of the progress bar is tracked, and
the percent payload flows to that external component. -/
structure UiModel where
  status : String
  hasProgressBar : Bool
  psqlOutputs : List String
  width : Nat
  deriving DecidableEq

/-- The Update transition function (identical in start.go lines 869-927 and
commit.go lines 231-289).  Returned tea commands (Quit, ticks, SetPercent)
are external effects and are dropped here; the Ctrl-C branch additionally
cancels the context and runs the cleanup, neither of which changes the
model value it returns. -/
def update (m : UiModel) (msg : TeaMsg) : UiModel :=
  match msg with
  | TeaMsg.keyMsg _ => m
  | TeaMsg.windowSize w => { m with width := w }
  | TeaMsg.spinnerTick => m
  | TeaMsg.progressFrame => m
  | TeaMsg.statusMsg s => { m with status := s }
  | TeaMsg.progressMsg p =>
    match p with
    | none => { m with hasProgressBar := false }
    | some _ => { m with hasProgressBar := true }
  | TeaMsg.psqlMsg ln =>
    match ln with
    | none => { m with psqlOutputs := [] }
    | some l =>
      let appended := m.psqlOutputs ++ [l]
      { m with psqlOutputs := if appended.length > 5 then appended.drop 1 else appended }
  | TeaMsg.otherMsg => m

/-- Whether a message is a log-line (PsqlMsg) message. -/
def TeaMsg.isPsql : TeaMsg → Bool
  | TeaMsg.psqlMsg _ => true
  | _ => false

/-! ## Access token loading (utils LoadAccessToken) -/

/-- Character class [a-f0-9] of the access-token pattern. -/
def isHexLower (c : Char) : Bool :=
  (decide ('a' ≤ c) && decide (c ≤ 'f')) || (decide ('0' ≤ c) && decide (c ≤ '9'))

/-- Full match of the anchored pattern `^sbp_[a-f0-9]{40}$` checked by
regexp.MatchString in LoadAccessToken. -/
def sbpTokenFormat (s : String) : Bool :=
  match s.data with
  | 's' :: 'b' :: 'p' :: '_' :: rest => rest.length == 40 && rest.all isHexLower
  | _ => false

/-- Errors LoadAccessToken reports; the pattern-compilation error branch of
MatchString is unreachable for a fixed valid pattern. -/
inductive TokenErr
  | invalidFormat
  | notProvided
  deriving DecidableEq

/-- The persisted-file half of LoadAccessToken: none models os.ErrNotExist.
A failing read returns nil data in Go, which the string conversion turns
into empty content, so it coincides with some of the empty string, and
both land in the not-provided branch. -/
def tokenFromFile (file : Option String) : Except TokenErr String :=
  match file with
  | none => Except.error TokenErr.notProvided
  | some content =>
    if content == "" then Except.error TokenErr.notProvided
    else Except.ok content

/-- LoadAccessToken: os.Getenv yields the empty string when the variable is
unset, so an empty envVar means unset or empty.  A set non-empty value is
validated against the pattern and returned, taking precedence; only an
unset or empty variable reaches the persisted-file lookup. -/
def loadAccessToken (envVar : String) (file : Option String) : Except TokenErr String :=
  if envVar ≠ "" then
    if sbpTokenFormat envVar then Except.ok envVar
    else Except.error TokenErr.invalidFormat
  else tokenFromFile file

/-! ## Theorems -/

theorem replayedMigrations_cons (f : String) (fs : List String) :
    replayedMigrations (f :: fs) = if isLegacyInit f then fs else f :: fs := rfl

theorem matchInitHere_nil : matchInitHere [] = none := rfl

theorem matchInitHere_append (ds : List Char) (hlen : ds.length = 14)
    (hdig : ds.all isDig = true) :
    matchInitHere (ds ++ "_init.sql".data ++ t) = some ds := by
  have h1 : (ds ++ ("_init.sql".data ++ t)).take 14 = ds := by
    rw [← hlen]; simp
  have h2 : (ds ++ ("_init.sql".data ++ t)).drop 14 = "_init.sql".data ++ t := by
    rw [← hlen]; simp
  rw [List.append_assoc]
  unfold matchInitHere
  simp only [h1, h2, hlen, hdig]
  norm_num

theorem findInitMatch_of_matchInitHere (s ds : List Char) (hne : s ≠ [])
    (h : matchInitHere s = some ds) : findInitMatch s = some ds := by
  cases s with
  | nil => exact absurd rfl hne
  | cons c cs => unfold findInitMatch; rw [h]

/-- Leftmost-match characterization of findInitMatch: it returns some ds
exactly when the pattern matches at some position p with capture ds while
failing at every earlier position. -/
theorem findInitMatch_eq_some_iff (s ds : List Char) :
    findInitMatch s = some ds ↔
      ∃ p, matchInitHere (s.drop p) = some ds
        ∧ ∀ q, q < p → matchInitHere (s.drop q) = none := by
  induction s with
  | nil =>
    constructor
    · intro h; exact absurd h (by simp [findInitMatch])
    · rintro ⟨p, hp, _⟩
      rw [List.drop_nil] at hp
      exact absurd hp (by simp [matchInitHere_nil])
  | cons c cs ih =>
    constructor
    · intro h
      unfold findInitMatch at h
      cases h0 : matchInitHere (c :: cs) with
      | some d =>
        rw [h0] at h
        injection h with hd
        subst hd
        refine ⟨0, by simpa using h0, ?_⟩
        intro q hq; omega
      | none =>
        rw [h0] at h
        obtain ⟨p, hp, hmin⟩ := ih.mp h
        refine ⟨p + 1, by simpa using hp, ?_⟩
        intro q hq
        cases q with
        | zero => simpa using h0
        | succ q => exact (by simpa using hmin q (by omega))
    · rintro ⟨p, hp, hmin⟩
      cases p with
      | zero =>
        simp only [List.drop_zero] at hp
        exact findInitMatch_of_matchInitHere _ _ (by simp) hp
      | succ p =>
        have h0 : matchInitHere (c :: cs) = none := by
          simpa using hmin 0 (by omega)
        unfold findInitMatch
        rw [h0]
        refine ih.mpr ⟨p, by simpa using hp, ?_⟩
        intro q hq
        simpa using hmin (q + 1) (by omega)

/-- C2: during migration replay (both the main-branch creation of Start and
the shadow-database replay of the commit pipeline), a first migration file
literally named `<timestamp>_init.sql` whose 14-digit timestamp is
numerically below 20211209000000 is skipped entirely, and every other
migration file is applied in ascending lexicographic order. -/
theorem claim_C2 (ds : List Char) (rest : List String)
    (hlen : ds.length = 14) (hdig : ds.all isDig = true)
    (hts : parseDigits ds < 20211209000000)
    (hsorted : List.Sorted (fun a b : String => lexLt a.data b.data = true)
      (String.mk (ds ++ "_init.sql".data) :: rest)) :
    replayedMigrations (String.mk (ds ++ "_init.sql".data) :: rest) = rest
      ∧ List.Sorted (fun a b : String => lexLt a.data b.data = true) rest := by
  have hmatch : matchInitHere (ds ++ "_init.sql".data) = some ds := by
    have := matchInitHere_append (t := []) ds hlen hdig
    simpa using this
  have hfind : findInitMatch (ds ++ "_init.sql".data) = some ds := by
    refine findInitMatch_of_matchInitHere _ _ ?_ hmatch
    intro hcontra
    apply absurd (congrArg List.length hcontra)
    simp [hlen]
  have hlegacy : isLegacyInit (String.mk (ds ++ "_init.sql".data)) = true := by
    unfold isLegacyInit
    simp only [String.data]
    rw [hfind]
    simpa using hts
  refine ⟨?_, hsorted.of_cons⟩
  rw [replayedMigrations_cons, hlegacy]
  rfl

theorem claim_C2_witness :
    replayedMigrations (String.mk ("20211208000000".data ++ "_init.sql".data)
        :: ["20211209000001_a.sql", "20211210000000_b.sql"])
      = ["20211209000001_a.sql", "20211210000000_b.sql"]
    ∧ List.Sorted (fun a b : String => lexLt a.data b.data = true)
        ["20211209000001_a.sql", "20211210000000_b.sql"] :=
  claim_C2 "20211208000000".data ["20211209000001_a.sql", "20211210000000_b.sql"]
    (by decide) (by decide) (by decide) (by decide)

/-- C10 counterexample: the claim asserts the first file is skipped whenever
its name contains, anywhere, fourteen digits followed by _init.sql with the
digits parsing below 20211209000000.  The file name below contains such a
substring (20211208000000_init.sql, starting at index 23), yet the loop
replays rather than skips it, because the leftmost match of the unanchored
pattern captures 99999999999999, which is not below the threshold. -/
theorem claim_C10_cex :
    (∃ pre post : List Char,
      "99999999999999_init.sql20211208000000_init.sql".data
        = pre ++ "20211208000000_init.sql".data ++ post)
    ∧ parseDigits "20211208000000".data < 20211209000000
    ∧ replayedMigrations ["99999999999999_init.sql20211208000000_init.sql"]
        = ["99999999999999_init.sql20211208000000_init.sql"] :=
  ⟨⟨"99999999999999_init.sql".data, [], by decide⟩, by decide, by decide⟩

/-- C10 (amended): the legacy-skip check is applied only to the migration
file at index 0 and uses an unanchored pattern: the first file is skipped
exactly when the leftmost occurrence in its name of fourteen digits
followed by _init.sql has those digits parsing below 20211209000000 (so a
first migration not literally named `<timestamp>_init.sql`, for example
prefix_20211208000000_init.sql, is also silently skipped), while every
later file of the listing is always replayed. -/
theorem claim_C10 (name : String) (rest : List String) :
    (replayedMigrations (name :: rest) = rest ↔
      ∃ p ds, matchInitHere (name.data.drop p) = some ds
        ∧ (∀ q, q < p → matchInitHere (name.data.drop q) = none)
        ∧ parseDigits ds < 20211209000000)
    ∧ ∃ pre, replayedMigrations (name :: rest) = pre ++ rest := by
  have hne : name :: rest ≠ rest := by
    intro h
    have := congrArg List.length h
    simp at this
  constructor
  · constructor
    · intro h
      have hleg : isLegacyInit name = true := by
        by_contra hc
        rw [show replayedMigrations (name :: rest) = name :: rest by
          rw [replayedMigrations_cons]; simp [Bool.eq_false_iff.mpr hc]] at h
        exact hne h
      unfold isLegacyInit at hleg
      cases hf : findInitMatch name.data with
      | none => rw [hf] at hleg; simp at hleg
      | some ds =>
        rw [hf] at hleg
        obtain ⟨p, hp, hmin⟩ := (findInitMatch_eq_some_iff name.data ds).mp hf
        exact ⟨p, ds, hp, hmin, by simpa using hleg⟩
    · rintro ⟨p, ds, hp, hmin, hts⟩
      have hf : findInitMatch name.data = some ds :=
        (findInitMatch_eq_some_iff name.data ds).mpr ⟨p, hp, hmin⟩
      have hleg : isLegacyInit name = true := by
        unfold isLegacyInit; rw [hf]; simpa using hts
      rw [replayedMigrations_cons, hleg]
      simp
  · by_cases hleg : isLegacyInit name = true
    · exact ⟨[], by rw [replayedMigrations_cons, hleg]; simp⟩
    · refine ⟨[name], ?_⟩
      rw [replayedMigrations_cons]
      simp [Bool.eq_false_iff.mpr hleg]

theorem restoreStep_dirs_subset (env : RestoreEnv) (t : BranchesState) (b x : String)
    (hx : x ∈ (restoreStep env t b).dirs) : x ∈ t.dirs := by
  unfold restoreStep at hx
  split at hx
  · exact hx
  · split at hx
    · exact hx
    · simp only [List.mem_filter] at hx
      exact hx.1

theorem restoreStep_pointer_main (env : RestoreEnv) (t : BranchesState) (b : String)
    (h : t.pointer = "main") : (restoreStep env t b).pointer = "main" := by
  unfold restoreStep
  split
  · exact h
  · split
    · exact h
    · rfl

theorem restoreStep_errLog_mono (env : RestoreEnv) (t : BranchesState) (b : String)
    (x : String × String) (hx : x ∈ t.errLog) : x ∈ (restoreStep env t b).errLog := by
  unfold restoreStep
  split
  · exact hx
  · split
    · exact hx
    · exact List.mem_append_left _ hx

theorem restoreStep_databases_mono (env : RestoreEnv) (t : BranchesState) (b x : String)
    (hx : x ∈ t.databases) : x ∈ (restoreStep env t b).databases := by
  unfold restoreStep
  split
  · exact hx
  · split
    · exact List.mem_append_left _ hx
    · exact hx

theorem restoreList_dirs_subset (env : RestoreEnv) (l : List String) :
    ∀ t x, x ∈ (restoreList env l t).dirs → x ∈ t.dirs := by
  induction l with
  | nil => intro t x hx; exact hx
  | cons b bs ih =>
    intro t x hx
    exact restoreStep_dirs_subset env t b x (ih (restoreStep env t b) x hx)

theorem restoreList_pointer_main (env : RestoreEnv) (l : List String) :
    ∀ t, t.pointer = "main" → (restoreList env l t).pointer = "main" := by
  induction l with
  | nil => intro t h; exact h
  | cons b bs ih =>
    intro t h
    exact ih (restoreStep env t b) (restoreStep_pointer_main env t b h)

theorem restoreList_errLog_mono (env : RestoreEnv) (l : List String) :
    ∀ t x, x ∈ t.errLog → x ∈ (restoreList env l t).errLog := by
  induction l with
  | nil => intro t x hx; exact hx
  | cons b bs ih =>
    intro t x hx
    exact ih (restoreStep env t b) x (restoreStep_errLog_mono env t b x hx)

theorem restoreList_databases_mono (env : RestoreEnv) (l : List String) :
    ∀ t x, x ∈ t.databases → x ∈ (restoreList env l t).databases := by
  induction l with
  | nil => intro t x hx; exact hx
  | cons b bs ih =>
    intro t x hx
    exact ih (restoreStep env t b) x (restoreStep_databases_mono env t b x hx)

theorem restoreStep_of_fail (env : RestoreEnv) (t : BranchesState) (b e : String)
    (hnp : (b == "_current_branch") = false)
    (hfail : restoreBranch env b = Except.error e) :
    restoreStep env t b
      = { t with dirs := t.dirs.filter (fun d => d != b),
                 pointer := "main",
                 errLog := t.errLog ++ [(b, e)] } := by
  unfold restoreStep
  rw [hnp, hfail]
  simp

theorem restoreList_fail (env : RestoreEnv) (b e : String)
    (hnp : (b == "_current_branch") = false)
    (hfail : restoreBranch env b = Except.error e) :
    ∀ l t, b ∈ l →
      b ∉ (restoreList env l t).dirs
      ∧ (restoreList env l t).pointer = "main"
      ∧ (b, e) ∈ (restoreList env l t).errLog := by
  intro l
  induction l with
  | nil => intro t h; cases h
  | cons c cs ih =>
    intro t hmem
    by_cases hcb : c = b
    · subst hcb
      have hstep := restoreStep_of_fail env t c e hnp hfail
      refine ⟨?_, ?_, ?_⟩
      · intro hcontra
        have := restoreList_dirs_subset env cs (restoreStep env t c) c hcontra
        rw [hstep] at this
        simp only [List.mem_filter] at this
        simp at this
      · refine restoreList_pointer_main env cs (restoreStep env t c) ?_
        rw [hstep]
      · refine restoreList_errLog_mono env cs (restoreStep env t c) (c, e) ?_
        rw [hstep]
        simp
    · have hmem' : b ∈ cs := by
        rcases List.mem_cons.mp hmem with h | h
        · exact absurd h.symm hcb
        · exact h
      exact ih (restoreStep env t c) hmem'

theorem restoreList_success (env : RestoreEnv) (c : String)
    (hnp : (c == "_current_branch") = false)
    (hok : restoreBranch env c = Except.ok ()) :
    ∀ l t, c ∈ l → c ∈ (restoreList env l t).databases := by
  intro l
  induction l with
  | nil => intro t h; cases h
  | cons d ds ih =>
    intro t hmem
    by_cases hdc : d = c
    · subst hdc
      refine restoreList_databases_mono env ds (restoreStep env t d) d ?_
      unfold restoreStep
      rw [hnp, hok]
      simp
    · have hmem' : c ∈ ds := by
        rcases List.mem_cons.mp hmem with h | h
        · exact absurd h.symm hdc
        · exact h
      exact ih (restoreStep env t d) hmem'

/-- C1: a failure restoring one branch B (missing dump file or failing dump
replay) removes the directory of B, resets the current-branch pointer file
to main when it pointed to B, logs the error, and the restore continues
with every remaining branch; the restore phase never propagates an error
out of Start for a corrupt branch. -/
theorem claim_C1 (env : RestoreEnv) (s : BranchesState) (b e : String)
    (hmem : b ∈ s.dirs) (hnp : b ≠ "_current_branch")
    (hfail : restoreBranch env b = Except.error e) :
    b ∉ (restoreAll env s).dirs
    ∧ (s.pointer = b → (restoreAll env s).pointer = "main")
    ∧ (b, e) ∈ (restoreAll env s).errLog
    ∧ (∀ c, c ∈ s.dirs → c ≠ "_current_branch" →
        restoreBranch env c = Except.ok () → c ∈ (restoreAll env s).databases)
    ∧ restorePhase env s = Except.ok (restoreAll env s) := by
  have hnp' : (b == "_current_branch") = false := beq_eq_false_iff_ne.mpr hnp
  obtain ⟨h1, h2, h3⟩ := restoreList_fail env b e hnp' hfail s.dirs s hmem
  refine ⟨h1, fun _ => h2, h3, ?_, rfl⟩
  intro c hc hcnp hcok
  exact restoreList_success env c (beq_eq_false_iff_ne.mpr hcnp) hcok s.dirs s hc

theorem claim_C1_witness :
    "B" ∉ (restoreAll c1Env c1State).dirs
    ∧ (c1State.pointer = "B" → (restoreAll c1Env c1State).pointer = "main")
    ∧ ("B", "Branch was not dumped.") ∈ (restoreAll c1Env c1State).errLog
    ∧ (∀ c, c ∈ c1State.dirs → c ≠ "_current_branch" →
        restoreBranch c1Env c = Except.ok () → c ∈ (restoreAll c1Env c1State).databases)
    ∧ restorePhase c1Env c1State = Except.ok (restoreAll c1Env c1State) :=
  claim_C1 c1Env c1State "B" "Branch was not dumped."
    (by decide) (by decide) rfl

/-- C7: when Start creates the main branch, any failure while creating the
database, applying the baseline schema, applying extensions SQL, replaying
migrations, or applying seed SQL removes the main branch directory and
makes Start fail: every closure error yields (error, directory removed),
and the closure succeeds exactly when all five stage kinds succeed. -/
theorem claim_C7 (env : MainEnv) :
    (∀ e, ensureMainBody env = Except.error e →
      ensureMain env = (Except.error e, false))
    ∧ (ensureMainBody env = Except.ok () ↔
        env.createdbOk = true ∧ env.schemaOk = true
        ∧ (∀ x, env.extensionsSql = some x → env.extensionsOk = true)
        ∧ replayFiles env.migrationOk (replayedMigrations env.migrations) = Except.ok ()
        ∧ (∀ x, env.seedSql = some x → env.seedOk = true)) := by
  constructor
  · intro e h
    unfold ensureMain
    rw [h]
  · obtain ⟨cdb, sch, ext, extOk, migs, migOk, seed, sOk⟩ := env
    simp only [ensureMainBody]
    cases hrr : replayFiles migOk (replayedMigrations migs) <;>
      cases cdb <;> cases sch <;> cases ext <;> cases extOk <;>
      cases seed <;> cases sOk <;> simp_all

theorem claim_C7_witness :
    ensureMain
      { createdbOk := false, schemaOk := true, extensionsSql := none,
        extensionsOk := true, migrations := [], migrationOk := fun _ => true,
        seedSql := none, seedOk := true }
      = (Except.error MainErr.createDb, false) :=
  (claim_C7
    { createdbOk := false, schemaOk := true, extensionsSql := none,
      extensionsOk := true, migrations := [], migrationOk := fun _ => true,
      seedSql := none, seedOk := true }).1 MainErr.createDb rfl

/-- C6: the image-ensure step issues a remote pull only when the local
inspect fails, and two invocations for the same reference issue at most one
remote pull in total. -/
theorem claim_C6 (pull1 pull2 : Bool) (s : ImageState) :
    (s.present = true → (ensureImage pull1 s).2 = 0)
    ∧ (ensureImageTwice pull1 pull2 s).2 ≤ 1 := by
  constructor
  · intro h
    simp [ensureImage, h]
  · obtain ⟨p⟩ := s
    cases p <;> cases pull1 <;> cases pull2 <;> simp [ensureImageTwice, ensureImage]

theorem claim_C6_witness :
    (ensureImage true { present := true }).2 = 0
    ∧ (ensureImageTwice true true { present := true }).2 ≤ 1 :=
  ⟨(claim_C6 true true { present := true }).1 rfl,
   (claim_C6 true true { present := true }).2⟩

theorem commitMigrationSteps_no_drop (ok : String → Bool) (fs : List String) :
    CommitEffect.dropShadowDb ∉ (commitMigrationSteps ok fs).1 := by
  induction fs with
  | nil => simp [commitMigrationSteps]
  | cons f fs ih =>
    unfold commitMigrationSteps
    by_cases h : ok f <;> simp [h, ih]

theorem seqEffect_no_drop (eff : CommitEffect) (ok : Bool) (e : CommitErr)
    (rest : List CommitEffect × Except CommitErr Unit)
    (heff : eff ≠ CommitEffect.dropShadowDb)
    (hrest : CommitEffect.dropShadowDb ∉ rest.1) :
    CommitEffect.dropShadowDb ∉ (seqEffect eff ok e rest).1 := by
  unfold seqEffect
  split
  · intro hc
    rcases List.mem_cons.mp hc with h1 | h1
    · exact heff h1.symm
    · exact hrest h1
  · intro hc
    rcases List.mem_cons.mp hc with h1 | h1
    · exact heff h1.symm
    · cases h1

theorem commitDiffWrite_no_drop (env : CommitEnv) :
    CommitEffect.dropShadowDb ∉ (commitDiffWrite env).1 := by
  refine seqEffect_no_drop _ _ _ _ (by simp) ?_
  refine seqEffect_no_drop _ _ _ _ (by simp) ?_
  simp

theorem commitAfterExtensions_no_drop (env : CommitEnv) :
    CommitEffect.dropShadowDb ∉ (commitAfterExtensions env).1 := by
  unfold commitAfterExtensions
  split
  next tr e heq =>
    intro hc
    apply commitMigrationSteps_no_drop env.migrationOk (replayedMigrations env.migrations)
    rw [heq]
    exact hc
  next tr u heq =>
    intro hc
    rcases List.mem_append.mp hc with h1 | h1
    · apply commitMigrationSteps_no_drop env.migrationOk (replayedMigrations env.migrations)
      rw [heq]
      exact h1
    · exact commitDiffWrite_no_drop env h1

theorem commitBody_no_drop (env : CommitEnv) :
    CommitEffect.dropShadowDb ∉ (commitBody env).1 := by
  unfold commitBody
  refine seqEffect_no_drop _ _ _ _ (by simp) ?_
  refine seqEffect_no_drop _ _ _ _ (by simp) ?_
  cases hext : env.extensionsSql with
  | none => exact commitAfterExtensions_no_drop env
  | some x =>
    exact seqEffect_no_drop _ _ _ _ (by simp) (commitAfterExtensions_no_drop env)

/-- C3: for every run of the commit pipeline the shadow database is dropped
afterward regardless of outcome: the effect trace always ends with the drop
and contains no earlier drop, and the drop result never changes the
pipeline result since commitRun is independent of dropOk. -/
theorem claim_C3 (env : CommitEnv) (dropOk : Bool) :
    (∃ pre, (commitRun env dropOk).1 = pre ++ [CommitEffect.dropShadowDb]
      ∧ CommitEffect.dropShadowDb ∉ pre)
    ∧ commitRun env dropOk = commitRun env true :=
  ⟨⟨(commitBody env).1, rfl, commitBody_no_drop env⟩, rfl⟩

theorem filter_labeled_of_filter_not (l : List LabeledRes) :
    ((l.filter fun c => !c.labeled).filter fun c => c.labeled) = [] := by
  induction l with
  | nil => rfl
  | cons c cs ih =>
    by_cases h : c.labeled <;> simp [h, ih]

/-- C4: when the user cancels during Start, after cleanup zero containers
and zero networks tagged with the project-id label remain, and Start
returns the distinguished Aborted outcome, never an ordinary failure. -/
theorem claim_C4 (workerErr : Option String) (w : DockerWorld) :
    ((startRunExit true workerErr w).2.containers.filter fun c => c.labeled) = []
    ∧ ((startRunExit true workerErr w).2.networks.filter fun n => n.labeled) = []
    ∧ (startRunExit true workerErr w).1 = StartOutcome.aborted
    ∧ ∀ e, (startRunExit true workerErr w).1 ≠ StartOutcome.failed e := by
  refine ⟨?_, ?_, rfl, ?_⟩
  · exact filter_labeled_of_filter_not w.containers
  · exact filter_labeled_of_filter_not w.networks
  · intro e h
    cases h

/-- C5: when the environment is not running, Stop performs no resource
removal and succeeds reporting already stopped; otherwise (with the prune,
directory removal and each container removal succeeding) it removes every
project-labeled container, prunes every project-labeled network, deletes
the branches directory tree and reports success. -/
theorem claim_C5 (env : StopEnv) (running : Bool) (w : StopWorld) :
    (running = false → stopRun env running w = (StopOutcome.alreadyStopped, w))
    ∧ (running = true → env.pruneOk = true → env.rmBranchesOk = true →
        (∀ x, env.removeOk x = true) →
        (stopRun env running w).1 = StopOutcome.stopped
        ∧ ((stopRun env running w).2.containers.filter fun c => c.labeled) = []
        ∧ ((stopRun env running w).2.networks.filter fun n => n.labeled) = []
        ∧ (stopRun env running w).2.branchesDir = false) := by
  constructor
  · intro h
    simp [stopRun, h]
  · intro hrun hprune hrm hremove
    have hcont : (w.containers.filter fun c => !c.labeled || !env.removeOk c.id)
        = w.containers.filter fun c => !c.labeled := by
      apply List.filter_congr
      intro c _
      simp [hremove c.id]
    simp only [stopRun, hrun, hprune, hrm, Bool.not_true, Bool.false_eq_true,
      if_false, hcont]
    refine ⟨trivial, ?_, ?_, trivial⟩
    · exact filter_labeled_of_filter_not w.containers
    · exact filter_labeled_of_filter_not w.networks

theorem claim_C5_witness :
    stopRun
      { removeOk := fun _ => true, pruneOk := true, rmBranchesOk := true }
      false
      { containers := [{ id := "supabase_db_x", labeled := true }],
        networks := [{ id := "supabase_network_x", labeled := true }],
        branchesDir := true }
      = (StopOutcome.alreadyStopped,
          { containers := [{ id := "supabase_db_x", labeled := true }],
            networks := [{ id := "supabase_network_x", labeled := true }],
            branchesDir := true }) :=
  (claim_C5
    { removeOk := fun _ => true, pruneOk := true, rmBranchesOk := true }
    false
    { containers := [{ id := "supabase_db_x", labeled := true }],
      networks := [{ id := "supabase_network_x", labeled := true }],
      branchesDir := true }).1 rfl

/-- C8: the Update function keeps the rolling log window bounded at
capacity 5: from any state holding at most 5 lines every message leads to
a state holding at most 5 lines; a new log line arriving at capacity
evicts the oldest entry first; and every message kind other than the log
message leaves the window unchanged. -/
theorem claim_C8 (m : UiModel) (hlen : m.psqlOutputs.length ≤ 5) :
    (∀ msg, (update m msg).psqlOutputs.length ≤ 5)
    ∧ (m.psqlOutputs.length = 5 → ∀ l,
        (update m (TeaMsg.psqlMsg (some l))).psqlOutputs
          = m.psqlOutputs.drop 1 ++ [l])
    ∧ (∀ msg, msg.isPsql = false → (update m msg).psqlOutputs = m.psqlOutputs) := by
  refine ⟨?_, ?_, ?_⟩
  · intro msg
    cases msg with
    | psqlMsg ln =>
      cases ln with
      | none => simp [update]
      | some l =>
        simp only [update]
        by_cases h : (m.psqlOutputs ++ [l]).length > 5
        · simp only [h, if_true]
          simp [List.length_drop]
          omega
        · simp only [h, if_false]
          omega
    | keyMsg b => exact hlen
    | windowSize w => exact hlen
    | spinnerTick => exact hlen
    | progressFrame => exact hlen
    | statusMsg s => exact hlen
    | progressMsg p => cases p <;> exact hlen
    | otherMsg => exact hlen
  · intro h5 l
    have hgt : (m.psqlOutputs ++ [l]).length > 5 := by
      simp [h5]
    simp only [update, hgt, if_true]
    rw [List.drop_append_eq_append_drop]
    simp [h5]
  · intro msg hmsg
    cases msg with
    | psqlMsg ln => simp [TeaMsg.isPsql] at hmsg
    | keyMsg b => rfl
    | windowSize w => rfl
    | spinnerTick => rfl
    | progressFrame => rfl
    | statusMsg s => rfl
    | progressMsg p => cases p <;> rfl
    | otherMsg => rfl

theorem claim_C8_witness :
    (update
      { status := "Applying migration...", hasProgressBar := false,
        psqlOutputs := ["l1", "l2", "l3", "l4", "l5"], width := 80 }
      (TeaMsg.psqlMsg (some "l6"))).psqlOutputs
      = ["l2", "l3", "l4", "l5", "l6"] :=
  ((claim_C8
    { status := "Applying migration...", hasProgressBar := false,
      psqlOutputs := ["l1", "l2", "l3", "l4", "l5"], width := 80 }
    (by decide)).2.1 rfl "l6").trans (by decide)

/-- C9: a set, non-empty SUPABASE_ACCESS_TOKEN is returned when it matches
`^sbp_[a-f0-9]{40}$` and rejected with the format error otherwise, in both
cases without consulting the persisted token file; only an unset or empty
variable falls through to the file lookup. -/
theorem claim_C9 (envVar : String) (file : Option String) :
    (envVar ≠ "" →
      (sbpTokenFormat envVar = true → loadAccessToken envVar file = Except.ok envVar)
      ∧ (sbpTokenFormat envVar = false →
          loadAccessToken envVar file = Except.error TokenErr.invalidFormat)
      ∧ ∀ f, loadAccessToken envVar file = loadAccessToken envVar f)
    ∧ loadAccessToken "" file = tokenFromFile file := by
  constructor
  · intro h
    refine ⟨?_, ?_, ?_⟩
    · intro hfmt
      simp [loadAccessToken, h, hfmt]
    · intro hfmt
      simp [loadAccessToken, h, hfmt]
    · intro f
      simp [loadAccessToken, h]
  · simp [loadAccessToken]

theorem claim_C9_witness :
    loadAccessToken "sbp_0123456789abcdef0123456789abcdef01234567" none
      = Except.ok "sbp_0123456789abcdef0123456789abcdef01234567" :=
  ((claim_C9 "sbp_0123456789abcdef0123456789abcdef01234567" none).1
    (by decide)).1 (by decide)

end SupabaseCli
